import Mathlib

/-
Verification of the randomized circle-packing engine in `circles.py`.

The geometry and the packing loop are embedded over the real numbers
(the idealization of the float arithmetic in the source).  Every random draw
made by the source (`randint`, `random`) is passed in explicitly: a
`RandomSource` bundles the draws one run consumes, and range constraints
of `randint(lo, hi)` become `lo ≤ v ∧ v ≤ hi` hypotheses.  The angle
`random() * 2π` of the source is only ever used through `cos`/`sin`, so the
oracle supplies the angle itself.
-/

namespace CPack

/-- Point from `circles.py` lines 11-18: an (x, y) pair with Euclidean
distance computed as `sqrt(abs(dx)**2 + abs(dy)**2)`. -/
structure Point where
  x : ℝ
  y : ℝ

noncomputable def Point.distance_to (self p : Point) : ℝ :=
  Real.sqrt (|self.x - p.x| ^ 2 + |self.y - p.y| ^ 2)

/-- Circle from `circles.py` lines 21-40: a center and a radius. -/
structure Circle where
  c : Point
  r : ℝ

/-- Model of `Circle.contains`, lines 32-35: membership is non-strict
(`distance ≤ r`). -/
def Circle.contains (self : Circle) (point : Point) : Prop :=
  self.c.distance_to point ≤ self.r

/-- Model of `Circle.min_distance`, lines 37-40: shortest distance from the circle
boundary to the point. -/
noncomputable def Circle.min_distance (self : Circle) (other : Point) : ℝ :=
  |self.r - self.c.distance_to other|

/-- The rendered SVG element produced by `Circle.render`, lines 25-30. -/
structure Element where
  cx : ℝ
  cy : ℝ
  r : ℝ
  stroke : String
  stroke_width : ℝ
  fill : String

noncomputable def Circle.render (self : Circle) (color : String) : Element :=
  ⟨self.c.x, self.c.y, self.r, color, 1, "none"⟩

/-- The `Generator` dataclass configuration, lines 43-51 (all CLI
arguments are Python ints). -/
structure Generator where
  size : ℤ
  min_shift : ℤ
  max_shift : ℤ
  min_width : ℤ
  min_circles : ℤ
  max_circles : ℤ
  min_radius : ℤ

/-- Model of `Generator.outer`, lines 67-71: `outer_r = size // 2` (integer floor
division) and the center sits at `(outer_r, outer_r)`. -/
noncomputable def Generator.outer (g : Generator) : Circle :=
  ⟨⟨((g.size / 2 : ℤ) : ℝ), ((g.size / 2 : ℤ) : ℝ)⟩, ((g.size / 2 : ℤ) : ℝ)⟩

/-- Model of `Generator.inner`, lines 73-79.  `s1` and `s2` are the two
`randint(min_shift, max_shift)` draws. -/
noncomputable def Generator.inner (g : Generator) (s1 s2 : ℤ) : Circle :=
  let inner_center : Point := ⟨g.outer.r + s1, g.outer.r + s2⟩
  ⟨inner_center, g.outer.min_distance inner_center - g.min_width⟩

/-- Model of `Generator.color`, lines 61-65: one hue and one saturation draw per
generator instance (`cached_property`). -/
def colorString (hue saturation : ℤ) : String :=
  "hsl(" ++ toString hue ++ ", " ++ toString saturation ++ "%, 20%)"

/-- Candidate center sampled in `get_random_circle`, lines 99-105:
`(outer.r + cos(angle)*distance, outer.r + sin(angle)*distance)`. -/
noncomputable def sampleCenter (g : Generator) (distance : ℤ) (angle : ℝ) : Point :=
  ⟨g.outer.r + Real.cos angle * distance, g.outer.r + Real.sin angle * distance⟩

/-- The tangency radius computed in `get_random_circle` lines 112-115:
start from `outer.min_distance(center)` and fold `min` with
`other.min_distance(center)` over the placed circles. -/
noncomputable def tangentR (g : Generator) (circles : List Circle) (center : Point) : ℝ :=
  circles.foldl (fun r other => min r (other.min_distance center)) (g.outer.min_distance center)

open scoped Classical

/-- Model of `Generator.get_random_circle`, lines 95-119.  The `randint` draw for
the radial distance and the `random()`-derived angle are the `distance`
and `angle` arguments; `min_distance` only bounds that draw (the bound is
carried as a hypothesis where needed). -/
noncomputable def Generator.get_random_circle (g : Generator) (min_distance : ℤ)
    (circles : List Circle) (distance : ℤ) (angle : ℝ) : Option Circle :=
  let center := sampleCenter g distance angle
  -- do not draw the circle if the center is inside of another circle
  if ∃ other ∈ circles, other.contains center then none
  else
    -- pick radius so the circle touches the closest circle
    let r := tangentR g circles center
    if r < (g.min_radius : ℝ) then none
    else some ⟨center, r⟩

/-- One draw consumed by one placement attempt: the `randint` distance
and the sampled angle. -/
structure Draw where
  distance : ℤ
  angle : ℝ

/-- The inner `for _ in range(40)` loop of `iter_elements`, lines 88-93:
try attempts until one succeeds or the budget runs out; returns the
accepted circle (if any) and the index of the next unconsumed draw. -/
noncomputable def Generator.attemptSlot (g : Generator) (min_distance : ℤ)
    (draws : ℕ → Draw) : ℕ → ℕ → List Circle → Option Circle × ℕ
  | 0, idx, _ => (none, idx)
  | budget + 1, idx, circles =>
    match g.get_random_circle min_distance circles (draws idx).distance (draws idx).angle with
    | some cir => (some cir, idx + 1)
    | none => g.attemptSlot min_distance draws budget (idx + 1) circles

/-- The outer `for _ in range(circles_count)` loop of `iter_elements`,
lines 87-93: each slot gets a 40-attempt budget; an accepted circle is
appended to the state and yielded; an exhausted slot is skipped. -/
noncomputable def Generator.iterLoop (g : Generator) (min_distance : ℤ)
    (draws : ℕ → Draw) : ℕ → ℕ → List Circle → List Circle
  | 0, _, _ => []
  | slots + 1, idx, circles =>
    match g.attemptSlot min_distance draws 40 idx circles with
    | (some cir, idx2) =>
      cir :: g.iterLoop min_distance draws slots idx2 (circles ++ [cir])
    | (none, idx2) => g.iterLoop min_distance draws slots idx2 circles

/-- All randomness one run consumes: the color draws, the two inner-disk
shift draws, the `randint(min_circles, max_circles)` target-count draw,
and the per-attempt draw stream. -/
structure RandomSource where
  hue : ℤ
  saturation : ℤ
  shift1 : ℤ
  shift2 : ℤ
  count : ℤ
  draws : ℕ → Draw

/-- Model of the `min_distance` of `iter_elements` line 85:
`ceil(inner.min_distance(Point(outer.r, outer.r)))`. -/
noncomputable def Generator.mdOf (g : Generator) (s1 s2 : ℤ) : ℤ :=
  ⌈(g.inner s1 s2).min_distance ⟨g.outer.r, g.outer.r⟩⌉

/-- The ordered list of circles accepted (and yielded) by one run of
`iter_elements`, lines 84-93: the state starts as `[inner]` and the loop
runs for the drawn `circles_count` slots. -/
noncomputable def Generator.circlesOf (g : Generator) (src : RandomSource) : List Circle :=
  g.iterLoop (g.mdOf src.shift1 src.shift2) src.draws src.count.toNat 0
    [g.inner src.shift1 src.shift2]

/-- Model of `iter_elements`, lines 81-93: the `assert self.inner.r < self.outer.r`
on line 82 is the only configuration check; when it fails the run raises
(modelled as `.error`), otherwise every accepted circle is yielded
rendered with the one cached color. -/
noncomputable def Generator.run_elements (g : Generator) (src : RandomSource) :
    Except String (List Element) :=
  if (g.inner src.shift1 src.shift2).r < g.outer.r then
    .ok ((g.circlesOf src).map (fun cir =>
      cir.render (colorString src.hue src.saturation)))
  else
    .error "AssertionError: inner.r < outer.r"

/-- Model of `main`, lines 122-144: `if args.seed:` is a Python truthiness test,
so the RNG is seeded only when a seed is given and it is nonzero;
otherwise the run consumes the ambient (unseeded) random state.
`seedSrc` is the deterministic map from a seed to the random stream it
produces. -/
noncomputable def mainOutput (g : Generator) (seedArg : Option ℤ)
    (seedSrc : ℤ → RandomSource) (ambient : RandomSource) :
    Except String (List Element) :=
  let src := match seedArg with
    | some s => if s = 0 then ambient else seedSrc s
    | none => ambient
  g.run_elements src

/-- The `randint(min_distance, floor(outer.r))` contract for the whole
attempt-draw stream of one run. -/
def ValidDraws (g : Generator) (src : RandomSource) : Prop :=
  ∀ i : ℕ, g.mdOf src.shift1 src.shift2 ≤ (src.draws i).distance ∧
    (src.draws i).distance ≤ ⌊g.outer.r⌋

/- ------------------------------------------------------------------ -/
/- Basic geometry lemmas                                               -/
/- ------------------------------------------------------------------ -/

lemma Point.distance_to_nonneg (p q : Point) : 0 ≤ p.distance_to q :=
  Real.sqrt_nonneg _

lemma Point.distance_to_comm (p q : Point) : p.distance_to q = q.distance_to p := by
  unfold Point.distance_to
  rw [abs_sub_comm p.x q.x, abs_sub_comm p.y q.y]

lemma outer_center (g : Generator) : g.outer.c = ⟨g.outer.r, g.outer.r⟩ := rfl

/-- The sampled candidate center lies at radial distance `|d|` from the
canvas center. -/
lemma sampleCenter_dist (g : Generator) (d : ℤ) (θ : ℝ) :
    (sampleCenter g d θ).distance_to ⟨g.outer.r, g.outer.r⟩ = |(d : ℝ)| := by
  unfold sampleCenter Point.distance_to
  have h1 : |g.outer.r + Real.cos θ * d - g.outer.r| ^ 2
      + |g.outer.r + Real.sin θ * d - g.outer.r| ^ 2 = ((d : ℝ)) ^ 2 := by
    rw [sq_abs, sq_abs]
    linear_combination ((d : ℝ)) ^ 2 * (Real.sin_sq_add_cos_sq θ)
  rw [h1, Real.sqrt_sq_eq_abs]

/- ------------------------------------------------------------------ -/
/- Folded-minimum lemmas for the tangency radius                       -/
/- ------------------------------------------------------------------ -/

lemma foldl_min_le_init (f : Circle → ℝ) :
    ∀ (l : List Circle) (a : ℝ), l.foldl (fun r o => min r (f o)) a ≤ a := by
  intro l
  induction l with
  | nil => intro a; simp
  | cons o l ih =>
    intro a
    calc (o :: l).foldl (fun r o => min r (f o)) a
        = l.foldl (fun r o => min r (f o)) (min a (f o)) := rfl
      _ ≤ min a (f o) := ih _
      _ ≤ a := min_le_left _ _

lemma foldl_min_le_mem (f : Circle → ℝ) :
    ∀ (l : List Circle) (a : ℝ) (o : Circle), o ∈ l →
      l.foldl (fun r o => min r (f o)) a ≤ f o := by
  intro l
  induction l with
  | nil => intro a o ho; cases ho
  | cons p l ih =>
    intro a o ho
    rcases List.mem_cons.1 ho with h | h
    · subst h
      calc (o :: l).foldl (fun r o => min r (f o)) a
          = l.foldl (fun r o => min r (f o)) (min a (f o)) := rfl
        _ ≤ min a (f o) := foldl_min_le_init f l _
        _ ≤ f o := min_le_right _ _
    · exact ih _ o h

lemma foldl_min_cases (f : Circle → ℝ) :
    ∀ (l : List Circle) (a : ℝ),
      l.foldl (fun r o => min r (f o)) a = a ∨
        ∃ o ∈ l, l.foldl (fun r o => min r (f o)) a = f o := by
  intro l
  induction l with
  | nil => intro a; left; rfl
  | cons p l ih =>
    intro a
    have hstep : (p :: l).foldl (fun r o => min r (f o)) a
        = l.foldl (fun r o => min r (f o)) (min a (f p)) := rfl
    rcases ih (min a (f p)) with h | ⟨o, ho, h⟩
    · rcases le_total a (f p) with hle | hle
      · left; rw [hstep, h, min_eq_left hle]
      · right
        exact ⟨p, List.mem_cons_self _ _, by rw [hstep, h, min_eq_right hle]⟩
    · right
      exact ⟨o, List.mem_cons_of_mem _ ho, by rw [hstep, h]⟩

lemma tangentR_le_outer (g : Generator) (circles : List Circle) (center : Point) :
    tangentR g circles center ≤ g.outer.min_distance center :=
  foldl_min_le_init _ circles _

lemma tangentR_le_mem (g : Generator) (circles : List Circle) (center : Point)
    (o : Circle) (ho : o ∈ circles) :
    tangentR g circles center ≤ o.min_distance center :=
  foldl_min_le_mem _ circles _ o ho

lemma tangentR_cases (g : Generator) (circles : List Circle) (center : Point) :
    tangentR g circles center = g.outer.min_distance center ∨
      ∃ o ∈ circles, tangentR g circles center = o.min_distance center :=
  foldl_min_cases _ circles _

/- ------------------------------------------------------------------ -/
/- Characterization of one placement attempt                           -/
/- ------------------------------------------------------------------ -/

/-- What `get_random_circle` guarantees about an accepted circle. -/
lemma get_random_circle_some {g : Generator} {md : ℤ} {circles : List Circle}
    {d : ℤ} {θ : ℝ} {cir : Circle}
    (h : g.get_random_circle md circles d θ = some cir) :
    cir.c = sampleCenter g d θ ∧
    cir.r = tangentR g circles (sampleCenter g d θ) ∧
    (∀ o ∈ circles, ¬ o.contains (sampleCenter g d θ)) ∧
    (g.min_radius : ℝ) ≤ cir.r := by
  unfold Generator.get_random_circle at h
  dsimp only at h
  by_cases h1 : ∃ other ∈ circles, other.contains (sampleCenter g d θ)
  · rw [if_pos h1] at h
    cases h
  · rw [if_neg h1] at h
    by_cases h2 : tangentR g circles (sampleCenter g d θ) < (g.min_radius : ℝ)
    · rw [if_pos h2] at h
      cases h
    · rw [if_neg h2] at h
      have hc : cir = ⟨sampleCenter g d θ, tangentR g circles (sampleCenter g d θ)⟩ :=
        (Option.some.inj h).symm
      subst hc
      push_neg at h1
      exact ⟨rfl, rfl, h1, not_lt.1 h2⟩

/-- A `get_random_circle` call returns `none` exactly when the candidate center
is inside (or on the boundary of) some placed circle, or the tangency
radius falls below `min_radius`. -/
lemma get_random_circle_none_iff (g : Generator) (md : ℤ) (circles : List Circle)
    (d : ℤ) (θ : ℝ) :
    g.get_random_circle md circles d θ = none ↔
      (∃ o ∈ circles, o.c.distance_to (sampleCenter g d θ) ≤ o.r) ∨
        tangentR g circles (sampleCenter g d θ) < (g.min_radius : ℝ) := by
  unfold Generator.get_random_circle
  dsimp only
  by_cases h1 : ∃ other ∈ circles, other.contains (sampleCenter g d θ)
  · rw [if_pos h1]
    simp only [true_iff]
    left
    obtain ⟨o, ho, hco⟩ := h1
    exact ⟨o, ho, hco⟩
  · rw [if_neg h1]
    by_cases h2 : tangentR g circles (sampleCenter g d θ) < (g.min_radius : ℝ)
    · rw [if_pos h2]
      simp only [true_iff]
      right
      exact h2
    · rw [if_neg h2]
      simp only [reduceCtorEq, false_iff]
      push_neg at h1
      intro hcon
      rcases hcon with ⟨o, ho, hco⟩ | hr
      · exact h1 o ho hco
      · exact h2 hr

/- ------------------------------------------------------------------ -/
/- The placement invariant                                             -/
/- ------------------------------------------------------------------ -/

/-- Everything `get_random_circle` guarantees about a circle accepted
while the placed list was `cs`: the center is outside every placed
circle, the radius is exactly the minimum of `outer.min_distance` and
the `min_distance` of every placed circle, the radius clears
`min_radius`, and the circle stays inside the outer disk. -/
def PlacedOk (g : Generator) (cs : List Circle) (cir : Circle) : Prop :=
  (∀ o ∈ cs, o.r < o.c.distance_to cir.c) ∧
  cir.r ≤ g.outer.min_distance cir.c ∧
  (∀ o ∈ cs, cir.r ≤ o.min_distance cir.c) ∧
  (cir.r = g.outer.min_distance cir.c ∨ ∃ o ∈ cs, cir.r = o.min_distance cir.c) ∧
  (g.min_radius : ℝ) ≤ cir.r ∧
  cir.c.distance_to g.outer.c + cir.r ≤ g.outer.r

lemma get_random_circle_placedOk {g : Generator} {md : ℤ} {circles : List Circle}
    {d : ℤ} {θ : ℝ} {cir : Circle}
    (h : g.get_random_circle md circles d θ = some cir)
    (h0 : 0 ≤ md) (hlo : md ≤ d) (hhi : d ≤ ⌊g.outer.r⌋) :
    PlacedOk g circles cir := by
  obtain ⟨hc, hr, hnc, hmin⟩ := get_random_circle_some h
  have hd0 : (0 : ℤ) ≤ d := le_trans h0 hlo
  have hdist : cir.c.distance_to g.outer.c = (d : ℝ) := by
    rw [hc, outer_center, sampleCenter_dist]
    exact abs_of_nonneg (by exact_mod_cast hd0)
  have hdR : (d : ℝ) ≤ g.outer.r :=
    le_trans (by exact_mod_cast hhi : (d : ℝ) ≤ (⌊g.outer.r⌋ : ℝ)) (Int.floor_le _)
  refine ⟨?_, ?_, ?_, ?_, hmin, ?_⟩
  · intro o ho
    have hno := hnc o ho
    unfold Circle.contains at hno
    rw [← hc] at hno
    exact lt_of_not_le hno
  · rw [hr, hc]
    exact tangentR_le_outer g circles _
  · intro o ho
    rw [hr, hc]
    exact tangentR_le_mem g circles _ o ho
  · rw [hr, hc]
    rcases tangentR_cases g circles (sampleCenter g d θ) with hca | ⟨o, ho, hca⟩
    · left; rw [hca]
    · right; exact ⟨o, ho, by rw [hca]⟩
  · have houter : cir.r ≤ g.outer.min_distance cir.c := by
      rw [hr, hc]; exact tangentR_le_outer g circles _
    have hmd : g.outer.min_distance cir.c = g.outer.r - d := by
      unfold Circle.min_distance
      rw [Point.distance_to_comm, hdist, abs_of_nonneg (sub_nonneg.2 hdR)]
    rw [hdist]
    linarith [houter, hmd.le, hmd.ge]

/- ------------------------------------------------------------------ -/
/- Lemmas on the attempt loop and the slot loop                        -/
/- ------------------------------------------------------------------ -/

lemma attemptSlot_some {g : Generator} {md : ℤ} {draws : ℕ → Draw} :
    ∀ (budget idx : ℕ) (cs : List Circle) (cir : Circle) (idx2 : ℕ),
      g.attemptSlot md draws budget idx cs = (some cir, idx2) →
      ∃ i, g.get_random_circle md cs (draws i).distance (draws i).angle = some cir := by
  intro budget
  induction budget with
  | zero =>
    intro idx cs cir idx2 h
    unfold Generator.attemptSlot at h
    simp at h
  | succ b ih =>
    intro idx cs cir idx2 h
    unfold Generator.attemptSlot at h
    cases hg : g.get_random_circle md cs (draws idx).distance (draws idx).angle with
    | some c2 =>
      rw [hg] at h
      simp only [Prod.mk.injEq, Option.some.injEq] at h
      exact ⟨idx, by rw [hg, h.1]⟩
    | none =>
      rw [hg] at h
      exact ih _ cs cir idx2 h

/-- The attempt loop consumes at most its budget of draws (40 in the
source). -/
lemma attemptSlot_idx_le {g : Generator} {md : ℤ} {draws : ℕ → Draw} :
    ∀ (budget idx : ℕ) (cs : List Circle),
      (g.attemptSlot md draws budget idx cs).2 ≤ idx + budget := by
  intro budget
  induction budget with
  | zero =>
    intro idx cs
    unfold Generator.attemptSlot
    simp
  | succ b ih =>
    intro idx cs
    unfold Generator.attemptSlot
    cases hg : g.get_random_circle md cs (draws idx).distance (draws idx).angle with
    | some c2 => simp
    | none =>
      simp only
      calc (g.attemptSlot md draws b (idx + 1) cs).2 ≤ (idx + 1) + b := ih _ cs
        _ ≤ idx + (b + 1) := by omega

/-- At most one circle is yielded per slot. -/
lemma iterLoop_length {g : Generator} {md : ℤ} {draws : ℕ → Draw} :
    ∀ (slots idx : ℕ) (cs : List Circle),
      (g.iterLoop md draws slots idx cs).length ≤ slots := by
  intro slots
  induction slots with
  | zero =>
    intro idx cs
    unfold Generator.iterLoop
    simp
  | succ s ih =>
    intro idx cs
    unfold Generator.iterLoop
    cases hA : g.attemptSlot md draws 40 idx cs with
    | mk copt idx2 =>
      cases copt with
      | some cir =>
        simp only [List.length_cons]
        exact Nat.succ_le_succ (ih _ _)
      | none =>
        simp only
        exact le_trans (ih _ _) (Nat.le_succ _)

/-- Main loop invariant: every circle the loop emits was accepted by
`get_random_circle` against the state holding exactly the starting
circles plus the circles emitted before it. -/
lemma iterLoop_spec {g : Generator} {md : ℤ} {draws : ℕ → Draw}
    (h0 : 0 ≤ md)
    (hv : ∀ i, md ≤ (draws i).distance ∧ (draws i).distance ≤ ⌊g.outer.r⌋) :
    ∀ (slots idx : ℕ) (cs l1 : List Circle) (cir : Circle) (l2 : List Circle),
      g.iterLoop md draws slots idx cs = l1 ++ cir :: l2 →
      PlacedOk g (cs ++ l1) cir := by
  intro slots
  induction slots with
  | zero =>
    intro idx cs l1 cir l2 h
    unfold Generator.iterLoop at h
    exact absurd h.symm (List.append_ne_nil_of_right_ne_nil l1 (List.cons_ne_nil _ _))
  | succ s ih =>
    intro idx cs l1 cir l2 h
    unfold Generator.iterLoop at h
    cases hA : g.attemptSlot md draws 40 idx cs with
    | mk copt idx2 =>
      rw [hA] at h
      cases copt with
      | some c =>
        simp only at h
        cases l1 with
        | nil =>
          simp only [List.nil_append] at h
          simp only [List.append_nil]
          have hce : c = cir := (List.cons.inj h).1
          obtain ⟨i, hi⟩ := attemptSlot_some 40 idx cs c idx2 hA
          rw [← hce]
          exact get_random_circle_placedOk hi h0 (hv i).1 (hv i).2
        | cons a l1 =>
          simp only [List.cons_append] at h
          have hca : c = a := (List.cons.inj h).1
          have htail := (List.cons.inj h).2
          have hmain := ih idx2 (cs ++ [c]) l1 cir l2 htail
          rw [← hca]
          rwa [List.append_assoc, List.singleton_append] at hmain
      | none =>
        simp only at h
        exact ih idx2 cs l1 cir l2 h

/-- PlacedOk turns the containment rejection plus the tangency radius
into the non-overlap inequality. -/
lemma placedOk_no_overlap {g : Generator} {cs : List Circle} {cir o : Circle}
    (hp : PlacedOk g cs cir) (ho : o ∈ cs) :
    o.r + cir.r ≤ o.c.distance_to cir.c := by
  obtain ⟨hout, -, hle, -, -, -⟩ := hp
  have h1 : o.r < o.c.distance_to cir.c := hout o ho
  have h2 : cir.r ≤ o.min_distance cir.c := hle o ho
  unfold Circle.min_distance at h2
  rw [abs_of_nonpos (by linarith)] at h2
  linarith

/-- Every emitted circle respects the state it was accepted against. -/
lemma iterLoop_mem {g : Generator} {md : ℤ} {draws : ℕ → Draw}
    (h0 : 0 ≤ md)
    (hv : ∀ i, md ≤ (draws i).distance ∧ (draws i).distance ≤ ⌊g.outer.r⌋)
    {slots idx : ℕ} {cs : List Circle} {cir : Circle}
    (h : cir ∈ g.iterLoop md draws slots idx cs) :
    ∃ l1, PlacedOk g (cs ++ l1) cir := by
  obtain ⟨l1, l2, hsplit⟩ := List.append_of_mem h
  exact ⟨l1, iterLoop_spec h0 hv slots idx cs l1 cir l2 hsplit⟩

/-- Pairwise non-overlap of the emitted circles. -/
lemma iterLoop_pairwise {g : Generator} {md : ℤ} {draws : ℕ → Draw}
    (h0 : 0 ≤ md)
    (hv : ∀ i, md ≤ (draws i).distance ∧ (draws i).distance ≤ ⌊g.outer.r⌋) :
    ∀ (slots idx : ℕ) (cs : List Circle),
      (g.iterLoop md draws slots idx cs).Pairwise
        (fun a b => a.r + b.r ≤ a.c.distance_to b.c) := by
  intro slots
  induction slots with
  | zero =>
    intro idx cs
    unfold Generator.iterLoop
    exact List.Pairwise.nil
  | succ s ih =>
    intro idx cs
    unfold Generator.iterLoop
    cases hA : g.attemptSlot md draws 40 idx cs with
    | mk copt idx2 =>
      cases copt with
      | some c =>
        simp only
        refine List.Pairwise.cons ?_ (ih idx2 (cs ++ [c]))
        intro b hb
        obtain ⟨l1, hp⟩ := iterLoop_mem h0 hv hb
        exact placedOk_no_overlap hp (by simp)
      | none =>
        simp only
        exact ih idx2 cs

/- ------------------------------------------------------------------ -/
/- Run-level lemmas                                                    -/
/- ------------------------------------------------------------------ -/

lemma Point.distance_to_self (p : Point) : p.distance_to p = 0 := by
  unfold Point.distance_to
  simp

lemma mdOf_nonneg (g : Generator) (s1 s2 : ℤ) : 0 ≤ g.mdOf s1 s2 := by
  unfold Generator.mdOf
  exact Int.ceil_nonneg (abs_nonneg _)

/-- The tangency property claimed for every yielded circle: its radius
is the minimum of `outer.min_distance` and `min_distance` of the inner
disk and of every circle yielded before it, and it clears `min_radius`. -/
def TangencySpec (g : Generator) (src : RandomSource) : Prop :=
  ∀ (l1 : List Circle) (cir : Circle) (l2 : List Circle),
    g.circlesOf src = l1 ++ cir :: l2 →
    (cir.r ≤ g.outer.min_distance cir.c ∧
      ∀ o ∈ g.inner src.shift1 src.shift2 :: l1, cir.r ≤ o.min_distance cir.c) ∧
    (cir.r = g.outer.min_distance cir.c ∨
      ∃ o ∈ g.inner src.shift1 src.shift2 :: l1, cir.r = o.min_distance cir.c) ∧
    (g.min_radius : ℝ) ≤ cir.r

/-- The ring property claimed for every yielded circle: its center
clears the inner disk and the whole circle stays inside the outer
disk. -/
def RingSpec (g : Generator) (src : RandomSource) : Prop :=
  ∀ cir ∈ g.circlesOf src,
    (g.inner src.shift1 src.shift2).r ≤
      (g.inner src.shift1 src.shift2).c.distance_to cir.c ∧
    g.outer.c.distance_to cir.c + cir.r ≤ g.outer.r

/- ------------------------------------------------------------------ -/
/- Claim theorems                                                      -/
/- ------------------------------------------------------------------ -/

/-- Claim C1: every circle accepted and yielded by the run has radius
equal to the minimum of `outer.min_distance` at its center and
`min_distance` at its center of every circle already placed before it
(the inner exclusion circle included), and that radius is at least the
configured `min_radius`. -/
theorem claim1_tangency (g : Generator) (src : RandomSource)
    (hv : ValidDraws g src) : TangencySpec g src := by
  intro l1 cir l2 hsplit
  unfold Generator.circlesOf at hsplit
  have hp := iterLoop_spec (mdOf_nonneg g src.shift1 src.shift2) hv
    src.count.toNat 0 [g.inner src.shift1 src.shift2] l1 cir l2 hsplit
  rw [List.singleton_append] at hp
  obtain ⟨-, h2, h3, h4, h5, -⟩ := hp
  exact ⟨⟨h2, h3⟩, h4, h5⟩

/-- Claim C2: any two circles accepted in one run, in placement order,
have centers at distance at least the sum of their radii — the placed
set stays mutually non-overlapping (here proved exactly, with no
floating-point tolerance needed). -/
theorem claim2_no_overlap (g : Generator) (src : RandomSource)
    (hv : ValidDraws g src) :
    (g.circlesOf src).Pairwise
      (fun a b => a.r + b.r ≤ a.c.distance_to b.c) := by
  unfold Generator.circlesOf
  exact iterLoop_pairwise (mdOf_nonneg g src.shift1 src.shift2) hv
    src.count.toNat 0 [g.inner src.shift1 src.shift2]

/-- Claim C3: the run performs at most 40 placement attempts per slot
(the attempt loop advances the draw index by at most 40), the number of
yielded circles never exceeds the drawn target count, and that count is
drawn from `[min_circles, max_circles]`; a slot whose budget runs out is
skipped without any error value. -/
theorem claim3_termination (g : Generator) (src : RandomSource)
    (h1 : g.min_circles ≤ src.count) (h2 : src.count ≤ g.max_circles) :
    (g.circlesOf src).length ≤ src.count.toNat ∧
    g.min_circles ≤ src.count ∧ src.count ≤ g.max_circles ∧
    ∀ (idx : ℕ) (cs : List Circle),
      (g.attemptSlot (g.mdOf src.shift1 src.shift2) src.draws 40 idx cs).2 ≤
        idx + 40 := by
  refine ⟨?_, h1, h2, ?_⟩
  · unfold Generator.circlesOf
    exact iterLoop_length src.count.toNat 0 _
  · intro idx cs
    exact attemptSlot_idx_le 40 idx cs

/-- Claim C6: every accepted circle lies in the ring between the inner
and the outer disk: its center is at distance at least `inner.r` from
the inner center, and `distance(outer.c, c.c) + c.r ≤ outer.r` (proved
exactly, with no tolerance needed). -/
theorem claim6_ring (g : Generator) (src : RandomSource)
    (hv : ValidDraws g src) : RingSpec g src := by
  intro cir hmem
  unfold Generator.circlesOf at hmem
  obtain ⟨l1, hp⟩ := iterLoop_mem (mdOf_nonneg g src.shift1 src.shift2) hv hmem
  obtain ⟨h1, -, -, -, -, h6⟩ := hp
  constructor
  · have := h1 (g.inner src.shift1 src.shift2) (by simp)
    exact this.le
  · rw [Point.distance_to_comm]
    exact h6

/-- Claim C5 (amended): the run raises exactly when the single
configuration check of the source — the assertion `inner.r < outer.r` — fails; no
other degenerate configuration (in particular `inner.r ≤ 0`) is
rejected. -/
theorem claim5_amended (g : Generator) (src : RandomSource) :
    (∃ msg, g.run_elements src = .error msg) ↔
      g.outer.r ≤ (g.inner src.shift1 src.shift2).r := by
  unfold Generator.run_elements
  by_cases h : (g.inner src.shift1 src.shift2).r < g.outer.r
  · rw [if_pos h]
    simp only [reduceCtorEq, exists_false, false_iff, not_le]
    exact h
  · rw [if_neg h]
    constructor
    · intro _
      exact not_lt.1 h
    · intro _
      exact ⟨_, rfl⟩

/-- Claim C7 (amended): for every nonzero seed, two runs with the same
configuration and the same seed produce identical output sequences
regardless of the ambient random state; seed 0 is excluded because
`if args.seed:` skips seeding on the falsy value 0. -/
theorem claim7_amended (g : Generator) (s : ℤ) (seedSrc : ℤ → RandomSource)
    (a1 a2 : RandomSource) (hs : s ≠ 0) :
    mainOutput g (some s) seedSrc a1 = mainOutput g (some s) seedSrc a2 := by
  unfold mainOutput
  dsimp only
  rw [if_neg hs, if_neg hs]

/-- Claim C8 (amended): a placement attempt is rejected exactly when the
candidate center lies inside or on the boundary of the inner disk or
some already-placed circle (`contains` is the non-strict
`distance ≤ radius`), or when the tangency radius falls below
`min_radius`; in particular a center exactly on an existing boundary IS
rejected. -/
theorem claim8_amended (g : Generator) (md : ℤ) (circles : List Circle)
    (d : ℤ) (θ : ℝ) :
    g.get_random_circle md circles d θ = none ↔
      (∃ o ∈ circles, o.c.distance_to (sampleCenter g d θ) ≤ o.r) ∨
        tangentR g circles (sampleCenter g d θ) < (g.min_radius : ℝ) :=
  get_random_circle_none_iff g md circles d θ

/-- Claim C4 (amended): the sampling lower bound keeps candidates out of
the interior of the inner disk only when the inner disk is centered at
the canvas center (zero shift draws): then any candidate sampled at
radial distance at least `mdOf` is never strictly inside the inner
disk.  (With a nonzero shift the bound is only a sampling bias; see the
counterexample.) -/
theorem claim4_amended (g : Generator) (d : ℤ) (θ : ℝ)
    (hd : g.mdOf 0 0 ≤ d) :
    ¬ ((sampleCenter g d θ).distance_to (g.inner 0 0).c <
        (g.inner 0 0).r) := by
  have hcenter : (g.inner 0 0).c = ⟨g.outer.r, g.outer.r⟩ := by
    unfold Generator.inner
    simp
  have hmd : g.mdOf 0 0 = ⌈|(g.inner 0 0).r|⌉ := by
    unfold Generator.mdOf Circle.min_distance
    rw [hcenter, Point.distance_to_self, sub_zero]
  have h0 : (0 : ℤ) ≤ g.mdOf 0 0 := mdOf_nonneg g 0 0
  have hd0 : (0 : ℤ) ≤ d := le_trans h0 hd
  rw [hcenter, sampleCenter_dist, abs_of_nonneg (by exact_mod_cast hd0 : (0:ℝ) ≤ (d:ℝ))]
  have hchain : (g.inner 0 0).r ≤ (d : ℝ) := by
    calc (g.inner 0 0).r ≤ |(g.inner 0 0).r| := le_abs_self _
      _ ≤ (⌈|(g.inner 0 0).r|⌉ : ℝ) := Int.le_ceil _
      _ = ((g.mdOf 0 0 : ℤ) : ℝ) := by rw [hmd]
      _ ≤ (d : ℝ) := by exact_mod_cast hd
  exact not_lt.2 hchain

/-- Claim C9 (amended): `outer` has center `(R, R)` and radius
`R = size // 2` — integer floor division, so `R = ⌊size/2⌋`, which
differs from `size/2` for odd sizes — and `inner` has center
`outer.center` shifted by the two draws from `[min_shift, max_shift]`
and radius `outer.min_distance(center) − min_width`. -/
lemma int_div_two_floor (n : ℤ) : ⌊(n : ℝ) / 2⌋ = n / 2 := by
  have hcast : ((n : ℝ) / 2) = (((n : ℚ) / ((2 : ℕ) : ℚ) : ℚ) : ℝ) := by
    push_cast
    ring
  rw [hcast, Rat.floor_cast]
  exact_mod_cast Rat.floor_intCast_div_natCast n 2

theorem claim9_amended (g : Generator) (s1 s2 : ℤ)
    (hs1 : g.min_shift ≤ s1 ∧ s1 ≤ g.max_shift)
    (hs2 : g.min_shift ≤ s2 ∧ s2 ≤ g.max_shift) :
    g.outer.c = ⟨((g.size / 2 : ℤ) : ℝ), ((g.size / 2 : ℤ) : ℝ)⟩ ∧
    g.outer.r = ((g.size / 2 : ℤ) : ℝ) ∧
    ((g.size / 2 : ℤ) : ℝ) = ((⌊(g.size : ℝ) / 2⌋ : ℤ) : ℝ) ∧
    (g.inner s1 s2).c = ⟨g.outer.r + s1, g.outer.r + s2⟩ ∧
    (g.inner s1 s2).r =
      g.outer.min_distance (g.inner s1 s2).c - g.min_width := by
  refine ⟨rfl, rfl, ?_, rfl, rfl⟩
  rw [int_div_two_floor]

/- ------------------------------------------------------------------ -/
/- Concrete runs (used for counterexamples and witnesses)              -/
/- ------------------------------------------------------------------ -/

lemma distance_eval (x1 y1 x2 y2 d : ℝ) (hd : 0 ≤ d)
    (h : (x1 - x2) ^ 2 + (y1 - y2) ^ 2 = d ^ 2) :
    Point.distance_to ⟨x1, y1⟩ ⟨x2, y2⟩ = d := by
  unfold Point.distance_to
  dsimp only
  rw [sq_abs, sq_abs, h, Real.sqrt_sq hd]

/-- Run of `circles.py` with `size=100`, no shift, `min_width=60` (which
forces a negative inner radius), one slot, `min_radius=4`. -/
def gC : Generator := ⟨100, 0, 0, 60, 1, 1, 4⟩

noncomputable def drawC : ℕ → Draw := fun _ => ⟨10, 0⟩

noncomputable def srcCh (hue : ℤ) : RandomSource := ⟨hue, 75, 0, 0, 1, drawC⟩

noncomputable def srcC : RandomSource := srcCh 0

lemma gC_outer : gC.outer = ⟨⟨50, 50⟩, 50⟩ := by
  unfold Generator.outer
  norm_num [gC]

lemma gC_inner : gC.inner 0 0 = ⟨⟨50, 50⟩, -10⟩ := by
  unfold Generator.inner Circle.min_distance
  rw [gC_outer]
  norm_num [gC, Point.distance_to_self, abs_of_nonneg]

lemma gC_md : gC.mdOf 0 0 = 10 := by
  unfold Generator.mdOf Circle.min_distance
  rw [gC_inner, gC_outer]
  dsimp only
  rw [Point.distance_to_self]
  norm_num

lemma dist_50_60 : Point.distance_to ⟨50, 50⟩ ⟨60, 50⟩ = 10 :=
  distance_eval 50 50 60 50 10 (by norm_num) (by norm_num)

lemma sample_gC : sampleCenter gC 10 0 = ⟨60, 50⟩ := by
  unfold sampleCenter
  rw [gC_outer]
  dsimp only
  norm_num

lemma gC_tangent : tangentR gC [⟨⟨50, 50⟩, -10⟩] ⟨60, 50⟩ = 20 := by
  unfold tangentR Circle.min_distance
  rw [gC_outer]
  simp only [List.foldl_cons, List.foldl_nil]
  rw [dist_50_60]
  norm_num [min_def, abs_of_nonneg]

lemma gC_grc :
    gC.get_random_circle 10 [⟨⟨50, 50⟩, -10⟩] 10 0 = some ⟨⟨60, 50⟩, 20⟩ := by
  unfold Generator.get_random_circle
  dsimp only
  rw [sample_gC]
  have hno : ¬ ∃ o ∈ [(⟨⟨50, 50⟩, -10⟩ : Circle)], o.contains ⟨60, 50⟩ := by
    simp only [List.mem_singleton, exists_eq_left, Circle.contains]
    rw [dist_50_60]
    norm_num
  rw [if_neg hno, gC_tangent]
  rw [if_neg (by norm_num [gC] : ¬ ((20 : ℝ) < (gC.min_radius : ℝ)))]

lemma gC_slot :
    gC.attemptSlot 10 drawC 40 0 [⟨⟨50, 50⟩, -10⟩] = (some ⟨⟨60, 50⟩, 20⟩, 1) := by
  rw [show (40 : ℕ) = 39 + 1 from rfl]
  unfold Generator.attemptSlot
  simp only [drawC]
  rw [gC_grc]

lemma gC_loop :
    gC.iterLoop 10 drawC 1 0 [⟨⟨50, 50⟩, -10⟩] = [⟨⟨60, 50⟩, 20⟩] := by
  rw [show (1 : ℕ) = 0 + 1 from rfl]
  unfold Generator.iterLoop
  rw [gC_slot]
  dsimp only
  unfold Generator.iterLoop
  rfl

lemma gC_circlesOf (hue : ℤ) :
    gC.circlesOf (srcCh hue) = [⟨⟨60, 50⟩, 20⟩] := by
  unfold Generator.circlesOf
  rw [show (srcCh hue).shift1 = 0 from rfl, show (srcCh hue).shift2 = 0 from rfl,
    show (srcCh hue).draws = drawC from rfl, show (srcCh hue).count = 1 from rfl,
    show (1 : ℤ).toNat = 1 from rfl]
  rw [gC_md, gC_inner]
  exact gC_loop

lemma gC_run (hue : ℤ) :
    gC.run_elements (srcCh hue) =
      .ok [⟨60, 50, 20, colorString hue 75, 1, "none"⟩] := by
  unfold Generator.run_elements
  rw [show (srcCh hue).shift1 = 0 from rfl, show (srcCh hue).shift2 = 0 from rfl]
  rw [gC_inner, gC_outer]
  dsimp only
  rw [if_pos (by norm_num : (-10 : ℝ) < 50)]
  rw [gC_circlesOf hue]
  rw [show (srcCh hue).hue = hue from rfl, show (srcCh hue).saturation = 75 from rfl]
  simp [Circle.render]

lemma validC : ValidDraws gC srcC := by
  intro i
  rw [show srcC.shift1 = 0 from rfl, show srcC.shift2 = 0 from rfl,
    show (srcC.draws i).distance = 10 from rfl]
  rw [gC_md, gC_outer]
  norm_num

/-- Configuration with a shifted inner disk: `size=100`, shifts drawn
from `[0, 30]`, `min_width=5`. -/
def g4 : Generator := ⟨100, 0, 30, 5, 1, 1, 4⟩

lemma g4_outer : g4.outer = ⟨⟨50, 50⟩, 50⟩ := by
  unfold Generator.outer
  norm_num [g4]

lemma dist_50_80 : Point.distance_to ⟨50, 50⟩ ⟨80, 50⟩ = 30 :=
  distance_eval 50 50 80 50 30 (by norm_num) (by norm_num)

lemma dist_80_50 : Point.distance_to ⟨80, 50⟩ ⟨50, 50⟩ = 30 := by
  rw [Point.distance_to_comm]
  exact dist_50_80

lemma g4_inner : g4.inner 30 0 = ⟨⟨80, 50⟩, 15⟩ := by
  unfold Generator.inner Circle.min_distance
  rw [g4_outer]
  norm_num [g4, dist_50_80, abs_of_nonneg]

lemma g4_md : g4.mdOf 30 0 = 15 := by
  unfold Generator.mdOf Circle.min_distance
  rw [g4_inner, g4_outer]
  dsimp only
  rw [dist_80_50]
  norm_num

lemma sample_g4 : sampleCenter g4 20 0 = ⟨70, 50⟩ := by
  unfold sampleCenter
  rw [g4_outer]
  dsimp only
  norm_num

lemma dist_70_80 : Point.distance_to ⟨70, 50⟩ ⟨80, 50⟩ = 10 :=
  distance_eval 70 50 80 50 10 (by norm_num) (by norm_num)

/-- Zero-shift configuration for the amended C4: `size=100`,
`min_width=5`, so the inner radius is 45. -/
def g4w : Generator := ⟨100, 0, 0, 5, 1, 1, 4⟩

lemma g4w_outer : g4w.outer = ⟨⟨50, 50⟩, 50⟩ := by
  unfold Generator.outer
  norm_num [g4w]

lemma g4w_inner : g4w.inner 0 0 = ⟨⟨50, 50⟩, 45⟩ := by
  unfold Generator.inner Circle.min_distance
  rw [g4w_outer]
  norm_num [g4w, Point.distance_to_self, abs_of_nonneg]

lemma g4w_md : g4w.mdOf 0 0 = 45 := by
  unfold Generator.mdOf Circle.min_distance
  rw [g4w_inner, g4w_outer]
  dsimp only
  rw [Point.distance_to_self]
  norm_num

/-- Same space as `gC` but with `min_radius = 0`, so a rejection cannot
come from the radius test. -/
def g8 : Generator := ⟨100, 0, 0, 60, 1, 1, 0⟩

noncomputable def o8 : Circle := ⟨⟨50, 50⟩, 10⟩

lemma g8_outer : g8.outer = ⟨⟨50, 50⟩, 50⟩ := by
  unfold Generator.outer
  norm_num [g8]

lemma sample_g8 : sampleCenter g8 10 0 = ⟨60, 50⟩ := by
  unfold sampleCenter
  rw [g8_outer]
  dsimp only
  norm_num

lemma g8_tangent : tangentR g8 [o8] ⟨60, 50⟩ = 0 := by
  unfold tangentR Circle.min_distance o8
  rw [g8_outer]
  simp only [List.foldl_cons, List.foldl_nil]
  rw [dist_50_60]
  norm_num [min_def, abs_of_nonneg]

/-- Odd-size configuration for C9. -/
def g9 : Generator := ⟨3, 0, 0, 0, 1, 1, 1⟩

/- ------------------------------------------------------------------ -/
/- Claim C10 and the counterexample / witness theorems                 -/
/- ------------------------------------------------------------------ -/

/-- Claim C10: every element yielded by one run is rendered with the one
color string drawn once per generator instance, so no run produces two
elements with different colors. -/
theorem claim10_color (g : Generator) (src : RandomSource) (es : List Element)
    (hok : g.run_elements src = .ok es) :
    (∀ e ∈ es, e.stroke = colorString src.hue src.saturation) ∧
    ∀ e1 ∈ es, ∀ e2 ∈ es, e1.stroke = e2.stroke := by
  have hall : ∀ e ∈ es, e.stroke = colorString src.hue src.saturation := by
    unfold Generator.run_elements at hok
    by_cases hlt : (g.inner src.shift1 src.shift2).r < g.outer.r
    · rw [if_pos hlt] at hok
      have hes : es = (g.circlesOf src).map
          (fun cir => cir.render (colorString src.hue src.saturation)) :=
        (Except.ok.inj hok).symm
      subst hes
      intro e he
      obtain ⟨cir, -, rfl⟩ := List.mem_map.1 he
      rfl
    · rw [if_neg hlt] at hok
      cases hok
  exact ⟨hall, fun e1 h1 e2 h2 => by rw [hall e1 h1, hall e2 h2]⟩

/-- Claim C4 counterexample: in the shifted configuration `g4` (shift
draws 30 and 0 are both inside `[min_shift, max_shift]`), the candidate
drawn at the valid radial distance 20 ≥ `mdOf` = 15 lies strictly inside
the inner exclusion disk — the sampling bound does not make candidates
avoid the inner disk. -/
theorem claim4_counterexample :
    g4.min_shift ≤ 30 ∧ 30 ≤ g4.max_shift ∧
    g4.min_shift ≤ 0 ∧ 0 ≤ g4.max_shift ∧
    g4.mdOf 30 0 ≤ 20 ∧ 20 ≤ ⌊g4.outer.r⌋ ∧
    (sampleCenter g4 20 0).distance_to (g4.inner 30 0).c < (g4.inner 30 0).r := by
  refine ⟨by decide, by decide, by decide, by decide, ?_, ?_, ?_⟩
  · rw [g4_md]
    decide
  · rw [g4_outer]
    norm_num
  · rw [sample_g4, g4_inner]
    dsimp only
    rw [dist_70_80]
    norm_num

/-- Claim C4 witness for the amended theorem, at the zero-shift
configuration `g4w` with draw distance 45. -/
theorem claim4_witness :
    g4w.mdOf 0 0 ≤ 45 ∧
    ¬ ((sampleCenter g4w 45 0).distance_to (g4w.inner 0 0).c <
        (g4w.inner 0 0).r) :=
  ⟨by rw [g4w_md], claim4_amended g4w 45 0 (by rw [g4w_md])⟩

/-- Claim C5 counterexample: in `gC` the inner radius is −10 ≤ 0 (a
degenerate configuration), the target count and all draws are valid,
yet the run raises no configuration error and even yields a circle. -/
theorem claim5_counterexample :
    (gC.inner srcC.shift1 srcC.shift2).r ≤ 0 ∧
    gC.min_circles ≤ srcC.count ∧ srcC.count ≤ gC.max_circles ∧
    ValidDraws gC srcC ∧
    gC.run_elements srcC = .ok [⟨60, 50, 20, colorString 0 75, 1, "none"⟩] := by
  refine ⟨?_, by decide, by decide, validC, gC_run 0⟩
  rw [show srcC.shift1 = 0 from rfl, show srcC.shift2 = 0 from rfl, gC_inner]
  norm_num

/-- Claim C7 counterexample: with seed 0 the CLI does not seed the RNG
(`if args.seed:` is false), so two runs with identical configuration and
identical seed 0 but different ambient random states produce different
outputs (here: different colors). -/
theorem claim7_counterexample :
    mainOutput gC (some 0) (fun _ => srcC) srcC ≠
      mainOutput gC (some 0) (fun _ => srcC) (srcCh 1) := by
  have h1 : mainOutput gC (some 0) (fun _ => srcC) srcC =
      .ok [⟨60, 50, 20, colorString 0 75, 1, "none"⟩] := by
    unfold mainOutput
    dsimp only
    rw [if_pos rfl]
    exact gC_run 0
  have h2 : mainOutput gC (some 0) (fun _ => srcC) (srcCh 1) =
      .ok [⟨60, 50, 20, colorString 1 75, 1, "none"⟩] := by
    unfold mainOutput
    dsimp only
    rw [if_pos rfl]
    exact gC_run 1
  rw [h1, h2]
  intro h
  simp only [Except.ok.injEq, List.cons.injEq, Element.mk.injEq, and_true] at h
  exact absurd h.2.2.2 (by decide)

/-- Claim C8 counterexample: a candidate center lying exactly on the
boundary of an existing circle (`distance = radius`) IS rejected by the
containment check — here `min_radius = 0`, so the rejection cannot come
from the radius test. -/
theorem claim8_counterexample :
    o8.c.distance_to (sampleCenter g8 10 0) = o8.r ∧
    g8.get_random_circle 10 [o8] 10 0 = none ∧
    ¬ (tangentR g8 [o8] (sampleCenter g8 10 0) < (g8.min_radius : ℝ)) := by
  refine ⟨?_, ?_, ?_⟩
  · rw [sample_g8]
    unfold o8
    dsimp only
    exact dist_50_60
  · unfold Generator.get_random_circle
    dsimp only
    rw [sample_g8]
    rw [if_pos ?_]
    refine ⟨o8, by simp, ?_⟩
    unfold Circle.contains o8
    dsimp only
    rw [dist_50_60]
  · rw [sample_g8, g8_tangent]
    norm_num [g8]

/-- Claim C9 counterexample: with the odd size 3 the outer radius is
`3 // 2 = 1`, not `3 / 2 = 1.5` as the claim states. -/
theorem claim9_counterexample : g9.outer.r ≠ (g9.size : ℝ) / 2 := by
  unfold Generator.outer
  norm_num [g9]

/-- Claim C1 witness: the concrete one-circle run satisfies the draw
contract and hence the tangency property. -/
theorem claim1_witness : ValidDraws gC srcC ∧ TangencySpec gC srcC :=
  ⟨validC, claim1_tangency gC srcC validC⟩

/-- Claim C2 witness at the concrete one-circle run. -/
theorem claim2_witness :
    ValidDraws gC srcC ∧
    (gC.circlesOf srcC).Pairwise
      (fun a b => a.r + b.r ≤ a.c.distance_to b.c) :=
  ⟨validC, claim2_no_overlap gC srcC validC⟩

/-- Claim C3 witness at the concrete one-circle run. -/
theorem claim3_witness :
    (gC.min_circles ≤ srcC.count ∧ srcC.count ≤ gC.max_circles) ∧
    ((gC.circlesOf srcC).length ≤ srcC.count.toNat ∧
     gC.min_circles ≤ srcC.count ∧ srcC.count ≤ gC.max_circles ∧
     ∀ (idx : ℕ) (cs : List Circle),
       (gC.attemptSlot (gC.mdOf srcC.shift1 srcC.shift2) srcC.draws 40 idx cs).2 ≤
         idx + 40) :=
  ⟨⟨by decide, by decide⟩, claim3_termination gC srcC (by decide) (by decide)⟩

/-- Claim C6 witness at the concrete one-circle run. -/
theorem claim6_witness : ValidDraws gC srcC ∧ RingSpec gC srcC :=
  ⟨validC, claim6_ring gC srcC validC⟩

/-- Claim C7 witness for the amended theorem, with the nonzero seed 42
and two different ambient states. -/
theorem claim7_witness :
    (42 : ℤ) ≠ 0 ∧
    mainOutput gC (some 42) (fun _ => srcC) srcC =
      mainOutput gC (some 42) (fun _ => srcC) (srcCh 1) :=
  ⟨by decide, claim7_amended gC 42 (fun _ => srcC) srcC (srcCh 1) (by decide)⟩

/-- Claim C9 witness for the amended theorem, at `gC` with both shift
draws 0 (inside `[min_shift, max_shift] = [0, 0]`). -/
theorem claim9_witness :
    ((gC.min_shift ≤ 0 ∧ 0 ≤ gC.max_shift) ∧
     (gC.min_shift ≤ 0 ∧ 0 ≤ gC.max_shift)) ∧
    (gC.outer.c = ⟨((gC.size / 2 : ℤ) : ℝ), ((gC.size / 2 : ℤ) : ℝ)⟩ ∧
     gC.outer.r = ((gC.size / 2 : ℤ) : ℝ) ∧
     ((gC.size / 2 : ℤ) : ℝ) = ((⌊(gC.size : ℝ) / 2⌋ : ℤ) : ℝ) ∧
     (gC.inner 0 0).c = ⟨gC.outer.r + (0 : ℤ), gC.outer.r + (0 : ℤ)⟩ ∧
     (gC.inner 0 0).r =
       gC.outer.min_distance (gC.inner 0 0).c - gC.min_width) :=
  ⟨⟨⟨by decide, by decide⟩, ⟨by decide, by decide⟩⟩,
    claim9_amended gC 0 0 ⟨by decide, by decide⟩ ⟨by decide, by decide⟩⟩

/-- Claim C10 witness at the concrete one-circle run. -/
theorem claim10_witness :
    gC.run_elements srcC =
      .ok [⟨60, 50, 20, colorString 0 75, 1, "none"⟩] ∧
    ((∀ e ∈ [(⟨60, 50, 20, colorString 0 75, 1, "none"⟩ : Element)],
        e.stroke = colorString srcC.hue srcC.saturation) ∧
     ∀ e1 ∈ [(⟨60, 50, 20, colorString 0 75, 1, "none"⟩ : Element)],
       ∀ e2 ∈ [(⟨60, 50, 20, colorString 0 75, 1, "none"⟩ : Element)],
         e1.stroke = e2.stroke) :=
  ⟨gC_run 0, claim10_color gC srcC _ (gC_run 0)⟩

end CPack
